import Mathlib

/-
Verification of the elixxir Encrypted-KV-Store (ekv) core against its
natural-language specification.

Shallow embedding conventions:
* Go byte slices are modeled as `List Nat` (each element one byte).
* Go strings are modeled as their byte sequences, `GoStr := List Nat`.
* Files are modeled by their contents (`List Nat`); a missing file is `none`.
* The two slot files `path.1` / `path.2` of one record are a `SlotFS`.
* External cryptographic primitives (BLAKE2b-256 from golang.org/x/crypto,
  XChaCha20-Poly1305) are not part of this repository; they are modeled from
  the spec as ideal (collision-free, authenticated) primitives, see the doc
  comments on `blake2bSum256` and `aeadSeal`/`aeadOpen`.
* Go `byte` arithmetic wraps at 256; where the source adds to a byte we take
  the result mod 256 explicitly.
-/

namespace EKV

/-- Go strings, modeled as their byte sequences. -/
abbrev GoStr := List Nat

/-- Byte sequence of a Lean string literal (used for error-message constants). -/
def strBytesOf (s : String) : GoStr := s.data.map Char.toNat

/-- Injective encoding of a byte list into a single natural number, used to
build the ideal models of the external hash and AEAD primitives. -/
def encodeList : List Nat → Nat
  | [] => 0
  | b :: rest => Nat.pair b (encodeList rest) + 1

/-- Modelled from the spec: BLAKE2b-256 (`blake2b.Sum256` from
golang.org/x/crypto, an external collaborator of this repository), idealized
as a collision-free digest of 32 bytes (the first entry carries an injective
encoding of the input; the remaining 31 entries are zero). -/
def blake2bSum256 (data : List Nat) : List Nat :=
  encodeList data :: List.replicate 31 0

/-- `binary.LittleEndian.PutUint32` applied to `uint32(n)`: the four
little-endian bytes of `n` truncated to 32 bits. -/
def putUint32LE (n : Nat) : List Nat :=
  [n % 256, n / 2 ^ 8 % 256, n / 2 ^ 16 % 256, n / 2 ^ 24 % 256]

/-- `int(binary.LittleEndian.Uint32 b)` for a 4-byte little-endian field
(64-bit `int`, so the value is the plain unsigned 32-bit number). -/
def getUint32LE (b : List Nat) : Nat :=
  b.getD 0 0 + b.getD 1 0 * 2 ^ 8 + b.getD 2 0 * 2 ^ 16 + b.getD 3 0 * 2 ^ 24

/-- Go's `copy(dst[a:b], src)`: copies `min (b-a) src.length` bytes of `src`
into `dst` starting at offset `a` (valid for the in-bounds call sites of
`write`, where `a ≤ b ≤ dst.length`). -/
def goCopy (dst : List Nat) (a b : Nat) (src : List Nat) : List Nat :=
  let n := min (b - a) src.length
  dst.take a ++ src.take n ++ dst.drop (a + n)

/-- io.go `compareModMonCntr`: returns 1 if t1 is newer, 2 if t2 is newer,
and 0 if there is an error; newer is the second of (0 < 1), (1 < 2), (2 < 0). -/
def compareModMonCntr (t1 t2 : Nat) : Nat :=
  if (t1 == 1 && t2 == 0) || (t1 == 2 && t2 == 1) || (t1 == 0 && t2 == 2) then 1
  else if (t1 == 0 && t2 == 1) || (t1 == 1 && t2 == 2) || (t1 == 2 && t2 == 0) then 2
  else 0

/-- One of the two slot files backing a record. -/
inductive SlotId
  | s1
  | s2
deriving DecidableEq, Repr

/-- The other slot. -/
def otherSlot : SlotId → SlotId
  | .s1 => .s2
  | .s2 => .s1

/-- The two slot files `path.1` / `path.2` of one record; `none` means the
file does not exist, `some c` that it exists with contents `c`. -/
structure SlotFS where
  slot1 : Option (List Nat)
  slot2 : Option (List Nat)
deriving DecidableEq, Repr

def slotData (fs : SlotFS) : SlotId → Option (List Nat)
  | .s1 => fs.slot1
  | .s2 => fs.slot2

def setSlot (fs : SlotFS) : SlotId → Option (List Nat) → SlotFS
  | .s1, v => { fs with slot1 := v }
  | .s2, v => { fs with slot2 := v }

/-- Errors surfaced by `readContents` (io.go). `invalidSize` corresponds to
the `errInvalidSizeContents` message; the other constructors cover the
wrapped I/O errors, `errShortRead` and `errChecksum`. -/
inductive RcErr
  | ioErr
  | shortRead
  | invalidSize
  | checksumMismatch
deriving DecidableEq, Repr

/-- io.go `readContents`: seeks to offset 1, reads a 4-byte length, `size`
payload bytes and a 32-byte checksum, and verifies the checksum.
A `Read` that finds no bytes at all returns `(0, io.EOF)` (modeled `.ioErr`);
a partial read yields the `errShortRead` path (`.shortRead`).

Faithful to a defect of the source: after computing `size`, the source runs
  `if size <= 0 { errors.Errorf(errInvalidSizeContents, size) }`
WITHOUT returning the constructed error, so the non-positive-size case falls
through and continues with the payload and checksum reads; this model does
the same (no `.invalidSize` is ever produced on this path). -/
def readContents (contents : List Nat) : Except RcErr (List Nat) :=
  let afterGen := contents.drop 1
  if afterGen.length = 0 then .error .ioErr
  else if afterGen.length < 4 then .error .shortRead
  else
    let size := getUint32LE (afterGen.take 4)
    let rest := contents.drop 5
    if 0 < size ∧ rest.length = 0 then .error .ioErr
    else if rest.length < size then .error .shortRead
    else
      let payload := rest.take size
      let rest2 := rest.drop size
      if rest2.length = 0 then .error .ioErr
      else if rest2.length < 32 then .error .shortRead
      else if rest2.take 32 = blake2bSum256 payload then .ok payload
      else .error .checksumMismatch

/-- Errors of io.go `getFileOrder`: both files missing (`os.IsNotExist` on
both), a composite error when both opens/reads failed otherwise, and the
invalid-counter comparison error. -/
inductive GfoErr
  | notFound
  | bothFailed
  | invalidCntr
deriving DecidableEq, Repr

/-- Whether opening the file and `ReadAt`-ing its first byte fails: the file
is missing, or it is empty (`ReadAt` returns `io.EOF`). -/
def slotReadErr : Option (List Nat) → Bool
  | none => true
  | some [] => true
  | some (_ :: _) => false

/-- The counter byte recovered by `getFileOrder`'s 1-byte `ReadAt`; the
buffer is preset to the invalid value 3 and keeps it when the read fails. -/
def slotTag : Option (List Nat) → Nat
  | some (b :: _) => b
  | _ => 3

/-- io.go `getFileOrder`: classifies the two slot files and returns
(newest, oldest); a lone readable file is newest with no oldest. -/
def getFileOrder (fs : SlotFS) : Except GfoErr (SlotId × Option SlotId) :=
  if fs.slot1 = none ∧ fs.slot2 = none then .error .notFound
  else if slotReadErr fs.slot1 && slotReadErr fs.slot2 then .error .bothFailed
  else if slotReadErr fs.slot1 then .ok (.s2, none)
  else if slotReadErr fs.slot2 then .ok (.s1, none)
  else
    match compareModMonCntr (slotTag fs.slot1) (slotTag fs.slot2) with
    | 1 => .ok (.s1, some .s2)
    | 2 => .ok (.s2, some .s1)
    | _ => .error .invalidCntr

/-- The body of `write`'s read-back loop for one candidate file: succeeds
when the 1-byte `ReadAt` returns 1 byte (`cnt == 1`) and `readContents`
succeeds, yielding the slot together with its counter byte. -/
def tryReadSlot (fs : SlotFS) (sid : SlotId) : Option (SlotId × Nat) :=
  match slotData fs sid with
  | some (b :: rest) =>
    match readContents (b :: rest) with
    | .ok _ => some (sid, b)
    | .error _ => none
  | _ => none

/-- io.go `write`, first phase: iterate over `[newest, oldest]` (both nil
when `getFileOrder` errored) and return the first file whose counter byte
and contents could be read, with that counter byte. -/
def writeReadAttempt (fs : SlotFS) : Option (SlotId × Nat) :=
  let filesToRead : List (Option SlotId) :=
    match getFileOrder fs with
    | .ok (n, o) => [some n, o]
    | .error _ => [none, none]
  (filesToRead.filterMap (fun x => x.bind (tryReadSlot fs))).head?

/-- io.go `write`: target slot is `path.1` when nothing was read or the read
file was `path.2`, else `path.2`. -/
def writeTarget : Option (SlotId × Nat) → SlotId
  | none => .s1
  | some (.s2, _) => .s1
  | some (.s1, _) => .s2

/-- io.go `write`: counter to store; defaults to 2 when nothing was read,
then `modMonCntr = (modMonCntr + 1) % 3` in Go byte arithmetic (the `+ 1`
wraps at 256 before the `% 3`). -/
def writeGen (found : Option (SlotId × Nat)) : Nat :=
  ((match found with
    | none => 2
    | some (_, b) => b) + 1) % 256 % 3

/-- io.go `write`, serialization: `contents := make([]byte, 1+4+len(data)+32)`,
`contents[0] = modMonCntr`, `copy(contents[1:4], sizeBytes)`,
`copy(contents[contentStart:contentEnd], data)`, and the checksum at the end.
Faithful to the source's `contents[1:4]` slice, which holds only 3 bytes, so
`copy` places just the three low little-endian bytes of the length there and
`contents[4]` keeps its zero value. -/
def serializeRecord (cntr : Nat) (data : List Nat) : List Nat :=
  let size := data.length
  let sizeBytes := putUint32LE size
  let c0 := (List.replicate (1 + 4 + size + 32) 0).set 0 cntr
  let c1 := goCopy c0 1 4 sizeBytes
  let c2 := goCopy c1 5 (5 + size) data
  let checksum := blake2bSum256 data
  goCopy c2 (5 + size) (5 + size + 32) checksum

/-- Error results of io.go `write` (storage creation and raw writes always
succeed in this model, so its own failure modes are the zero-length
rejection and the read-back verification). -/
inductive WriteErr
  | invalidSize
  | verifyReadFailed
  | verifyMismatch
deriving DecidableEq, Repr

/-- io.go `write`: rejects empty data, finds which slot was last readable,
writes counter+length+payload+checksum to the other slot (truncating it),
then re-reads that slot and compares the recovered payload with the input. -/
def write (fs : SlotFS) (data : List Nat) : SlotFS × Option WriteErr :=
  if data.length = 0 then (fs, some .invalidSize)
  else
    let found := writeReadAttempt fs
    let contents := serializeRecord (writeGen found) data
    let fs' := setSlot fs (writeTarget found) (some contents)
    match readContents contents with
    | .error _ => (fs', some .verifyReadFailed)
    | .ok got => if got = data then (fs', none) else (fs', some .verifyMismatch)

/-- The body of `read`'s loop for one candidate file: first file whose
contents parse, validate, and are non-empty is returned. -/
def readSlotNonEmpty (fs : SlotFS) (sid : SlotId) : Option (List Nat) :=
  match slotData fs sid with
  | some c =>
    match readContents c with
    | .ok contents => if contents.length = 0 then none else some contents
    | .error _ => none
  | none => none

/-- io.go `read`: tries newest then oldest, returning the first validated
non-empty contents. Faithful to the source's shadowing of `err` inside the
loop: the error returned when no candidate validates is the one from
`getFileOrder`, which is `nil` when `getFileOrder` itself succeeded (so
`read` can return `(nil, nil)`). -/
def read (fs : SlotFS) : Option (List Nat) × Option GfoErr :=
  match getFileOrder fs with
  | .error e => (none, some e)
  | .ok (n, o) =>
    match readSlotNonEmpty fs n with
    | some c => (some c, none)
    | none =>
      match o with
      | some s =>
        match readSlotNonEmpty fs s with
        | some c => (some c, none)
        | none => (none, none)
      | none => (none, none)

/-- Modelled from the spec: the authentication tag of the ideal AEAD
(XChaCha20-Poly1305 from golang.org/x/crypto, external to this repository),
an unforgeable function of key, nonce and message. -/
def aeadTag (key nonce body : List Nat) : Nat :=
  Nat.pair (encodeList key) (Nat.pair (encodeList nonce) (encodeList body))

/-- Modelled from the spec: ideal AEAD seal — the ciphertext body carries the
message followed by the authentication tag. -/
def aeadSeal (key nonce data : List Nat) : List Nat :=
  data ++ [aeadTag key nonce data]

/-- Modelled from the spec: ideal AEAD open — succeeds exactly when the
trailing tag authenticates (key, nonce, body); an empty ciphertext (no tag
present) fails. -/
def aeadOpen (key nonce ct : List Nat) : Option (List Nat) :=
  match ct.reverse with
  | [] => none
  | t :: rbody =>
    if t = aeadTag key nonce rbody.reverse then some rbody.reverse else none

/-- crypto.go `initChaCha20Poly1305`: the AEAD key is the BLAKE2b-256 hash
of the password bytes. -/
def initChaCha20Poly1305 (password : GoStr) : List Nat :=
  blake2bSum256 password

/-- The XChaCha20-Poly1305 nonce size (`chaCipher.NonceSize()`). -/
def nonceSize : Nat := 24

/-- crypto.go `encrypt`: draw a nonce from the csprng (modeled as the
supplied `nonce` argument, `nonceSize` bytes), then
`chaCipher.Seal(nonce, nonce, data, nil)`, i.e. nonce ++ sealed data. -/
def encrypt (data : List Nat) (password : GoStr) (nonce : List Nat) : List Nat :=
  nonce ++ aeadSeal (initChaCha20Poly1305 password) nonce data

/-- Outcome of `decrypt`: Go either panics (slice bounds out of range),
returns the wrapped AEAD authentication error, or returns the plaintext. -/
inductive DecR
  | panicked
  | authErr
  | ok (plaintext : List Nat)
deriving DecidableEq, Repr

/-- crypto.go `decrypt`: `nonce, ciphertext := data[:nonceLen], data[nonceLen:]`
— for `len(data) < nonceLen` the slice expression `data[:nonceLen]` exceeds
the slice's bounds and Go panics with a runtime error (modeled `.panicked`);
otherwise the remainder is opened with the password-derived key and an open
failure is returned as the authentication error. -/
def decrypt (data : List Nat) (password : GoStr) : DecR :=
  if data.length < nonceSize then .panicked
  else
    match aeadOpen (initChaCha20Poly1305 password) (data.take nonceSize)
        (data.drop nonceSize) with
    | some plaintext => .ok plaintext
    | none => .authErr

/-- memstore.go `objectNotFoundErr`. -/
def objectNotFoundErr : GoStr := strBytesOf "object not found"

/-- A Go error value as `Exists` inspects it: whether `errors.Is` finds
`os.ErrNotExist` in its wrap chain, and its message bytes. -/
structure GoErr where
  wrapsNotExist : Bool
  msg : GoStr
deriving DecidableEq, Repr

/-- Go `strings.Contains(s, sub)`: some suffix of `s` starts with `sub`. -/
def goStringsContains (s sub : GoStr) : Bool :=
  (List.range (s.length + 1)).any fun i => sub.isPrefixOf (s.drop i)

/-- interface.go `Exists`: true for a nil error; false exactly when the
error wraps `os.ErrNotExist` or its message contains `objectNotFoundErr`. -/
def ExistsFn : Option GoErr → Bool
  | none => true
  | some e => !(e.wrapsNotExist || goStringsContains e.msg objectNotFoundErr)

/-- The staged-operation tag of an Operable (filestore.go `OperableOps`). -/
inductive OperableOps
  | readOp
  | writeOp
  | deleteOp
deriving DecidableEq, Repr

/-- A Go byte slice that may be nil. -/
abbrev GoBytes := Option (List Nat)

/-- memstore.go `operableMem`: the per-key staging handle of a Memstore
transaction (the back-pointer to the store is kept outside the model). -/
structure OperableMem where
  key : GoStr
  closed : Bool
  data : GoBytes
  exs : Bool
  op : OperableOps
deriving DecidableEq, Repr

/-- `operableMem.Set` (after the `testClosed` guard): stage a write. -/
def opmSet (o : OperableMem) (d : GoBytes) : OperableMem :=
  { o with data := d, exs := true, op := .writeOp }

/-- `operableMem.Delete` (after the `testClosed` guard): stage a deletion. -/
def opmDelete (o : OperableMem) : OperableMem :=
  { o with data := none, exs := false, op := .deleteOp }

/-- `operableMem.Get` (after the `testClosed` guard). -/
def opmGet (o : OperableMem) : GoBytes × Bool :=
  (o.data, o.exs)

/-- `operableMem.Exists` (after the `testClosed` guard). -/
def opmExists (o : OperableMem) : Bool :=
  o.exs

/-- The Memstore map: association list from key to stored bytes (a present
key may hold a nil slice, hence `GoBytes`). -/
abbrev MemMap := List (GoStr × GoBytes)

def lookupMem (m : MemMap) (k : GoStr) : Option GoBytes :=
  m.lookup k

def updateMem : MemMap → GoStr → GoBytes → MemMap
  | [], k, v => [(k, v)]
  | (q, w) :: rest, k, v =>
    if q = k then (q, v) :: rest else (q, w) :: updateMem rest k v

def deleteMem : MemMap → GoStr → MemMap
  | [], _ => []
  | (q, w) :: rest, k =>
    if q = k then rest else (q, w) :: deleteMem rest k

/-- memstore.go `extendableMem.Extend` body for one key:
`operInternal.data, operInternal.exists = e.mem.store[operInternal.key]`
(a missing key yields the nil slice and false). -/
def memExtendOne (m : MemMap) (k : GoStr) : OperableMem :=
  match lookupMem m k with
  | some v => { key := k, closed := false, data := v, exs := true, op := .readOp }
  | none => { key := k, closed := false, data := none, exs := false, op := .readOp }

/-- memstore.go `extendableMem.Extend` over the key list. -/
def memExtend (m : MemMap) (keys : List GoStr) : List OperableMem :=
  keys.map (memExtendOne m)

/-- memstore.go `operableMem.Flush` effect on the store (guarded by
`IsClosed` in `extendableMem.flush`): a staged write stores `op.data`, a
staged delete removes the key, a read does nothing. -/
def memFlushOne (m : MemMap) (o : OperableMem) : MemMap :=
  if o.closed then m
  else
    match o.op with
    | .readOp => m
    | .writeOp => updateMem m o.key o.data
    | .deleteOp => deleteMem m o.key

/-- Result of a `Transaction` call: success, the operation's error returned
unchanged, an error from `Extend`'s read or decrypt step, or a Go panic. -/
inductive TxRes (ε : Type)
  | ok
  | opErr (e : ε)
  | extendReadErr (e : GfoErr)
  | extendDecryptErr
  | panicked

/-- memstore.go `Memstore.Transaction`: extend over the keys (never fails
for the in-memory map), run the operation — modeled as a pure transformer
of the staged operable states returning an optional error — and flush the
resulting operables only when the operation returned nil. -/
def memTransaction {ε : Type} (m : MemMap) (keys : List GoStr)
    (op : List OperableMem → List OperableMem × Option ε) : MemMap × TxRes ε :=
  let opers := memExtend m keys
  match op opers with
  | (_, some e) => (m, .opErr e)
  | (opers', none) => (opers'.foldl memFlushOne m, .ok)

/-- filestore.go `operable`: the per-key staging handle of a Filestore
transaction. -/
structure OperableF where
  key : GoStr
  closed : Bool
  ecrKey : GoStr
  data : GoBytes
  exs : Bool
  existed : Bool
  op : OperableOps
deriving DecidableEq, Repr

/-- `operable.Set` (after the `testClosed` guard): stage a write. -/
def opfSet (o : OperableF) (d : GoBytes) : OperableF :=
  { o with data := d, exs := true, op := .writeOp }

/-- `operable.Delete` (after the `testClosed` guard): stage a deletion. -/
def opfDelete (o : OperableF) : OperableF :=
  { o with data := none, exs := false, op := .deleteOp }

/-- `operable.Get` (after the `testClosed` guard). -/
def opfGet (o : OperableF) : GoBytes × Bool :=
  (o.data, o.exs)

/-- `operable.Exists` (after the `testClosed` guard). -/
def opfExists (o : OperableF) : Bool :=
  o.exs

/-- The storage backend as the codec sees it: an association from record
path to its two slot files (the `.1`/`.2` suffixed names are distinct per
path, so grouping them per record is equivalent). -/
abbrev FStorage := List (GoStr × SlotFS)

def lookupFS (st : FStorage) (p : GoStr) : SlotFS :=
  (st.lookup p).getD ⟨none, none⟩

def updateFS : FStorage → GoStr → SlotFS → FStorage
  | [], p, v => [(p, v)]
  | (q, w) :: rest, p, v =>
    if q = p then (q, v) :: rest else (q, w) :: updateFS rest p v

/-- Codec `read` on the storage map. -/
def fsReadStorage (st : FStorage) (p : GoStr) : Option (List Nat) × Option GfoErr :=
  read (lookupFS st p)

/-- Codec `write` on the storage map. -/
def fsWriteStorage (st : FStorage) (p : GoStr) (data : List Nat) :
    FStorage × Option WriteErr :=
  let r := write (lookupFS st p) data
  (updateFS st p r.1, r.2)

/-- io.go `deleteFiles` on the storage map: both slots of the record are
overwritten and removed (errors do not occur in this storage model). -/
def fsDeleteStorage (st : FStorage) (p : GoStr) : FStorage :=
  updateFS st p ⟨none, none⟩

/-- Modelled from the spec: base32768 text encoding of the obfuscated key
(external github.com/Max-Sum/base32768), idealized as an injective
storage-safe encoding — here the identity on the digest bytes. -/
def encodeKey (key : List Nat) : GoStr := key

/-- crypto.go `hashStringWithPassword`: `H(H(password) || H(data))`. -/
def hashStringWithPassword (data password : GoStr) : List Nat :=
  blake2bSum256 (blake2bSum256 password ++ blake2bSum256 data)

/-- `os.PathSeparator` as a byte. -/
def pathSepByte : Nat := 47

/-- The Filestore as the transaction engine sees it. -/
structure FilestoreM where
  basedir : GoStr
  password : GoStr
  storage : FStorage
deriving DecidableEq, Repr

/-- filestore.go `Filestore.getKey`: basedir + separator + encoded keyed
hash of the key name. -/
def getKey (f : FilestoreM) (key : GoStr) : GoStr :=
  f.basedir ++ [pathSepByte] ++ encodeKey (hashStringWithPassword key f.password)

/-- Whether interface.go `Exists` classifies a codec read error as the
recognized not-found condition: only the both-slots-missing error wraps
`os.ErrNotExist`; the composite and invalid-counter errors do not, and
their messages do not contain `objectNotFoundErr`. -/
def gfoErrIsNotFound : GfoErr → Bool
  | .notFound => true
  | .bothFailed => false
  | .invalidCntr => false

/-- Result of filestore.go `extendable.Extend`: the operable list, an error
propagated from `read` or `decrypt`, or a Go panic (from `decrypt` slicing
a ciphertext shorter than the nonce — including the nil contents that
`read` can return together with a nil error). -/
inductive ExtendRes
  | panicked
  | errRead (e : GfoErr)
  | errDecrypt
  | ok (opers : List OperableF)

/-- filestore.go `extendable.Extend`, one key: read the record; a not-found
read error leaves `hasfile = false`; any other read error is returned; with
a file present, decrypt (a decrypt error is returned; a decrypt panic
propagates) and populate `data`, `exists`, `existed`. -/
def fsExtendLoop (f : FilestoreM) : List GoStr → List OperableF → ExtendRes
  | [], acc => .ok acc.reverse
  | k :: rest, acc =>
    let ecr := getKey f k
    match fsReadStorage f.storage ecr with
    | (some c, _) =>
      match decrypt c f.password with
      | .ok d =>
        fsExtendLoop f rest
          ({ key := k, closed := false, ecrKey := ecr, data := some d,
             exs := true, existed := true, op := .readOp } :: acc)
      | .authErr => .errDecrypt
      | .panicked => .panicked
    | (none, some e) =>
      if gfoErrIsNotFound e then
        fsExtendLoop f rest
          ({ key := k, closed := false, ecrKey := ecr, data := none,
             exs := false, existed := false, op := .readOp } :: acc)
      else .errRead e
    | (none, none) => .panicked

def fsExtend (f : FilestoreM) (keys : List GoStr) : ExtendRes :=
  fsExtendLoop f keys []

def extractOpers : ExtendRes → List OperableF
  | .ok l => l
  | _ => []

def isExtendOk : ExtendRes → Bool
  | .ok _ => true
  | _ => false

/-- filestore.go `operable.Flush` effect on storage: a staged write
encrypts the data (nonce drawn from the csprng) and codec-writes it under
the obfuscated key; a staged delete removes both slots if the record
existed at snapshot time; a read does nothing. -/
def opfFlush (password : GoStr) (nonce : List Nat) (st : FStorage) (o : OperableF) :
    FStorage × Option WriteErr :=
  match o.op with
  | .readOp => (st, none)
  | .writeOp => fsWriteStorage st o.ecrKey (encrypt (o.data.getD []) password nonce)
  | .deleteOp => if o.existed then (fsDeleteStorage st o.ecrKey, none) else (st, none)

/-- filestore.go `extendable.flush`: flush every still-open operable; a
flush error raises `jww.FATAL.Panicf` (modeled by the Boolean panicked
flag, leaving the partially-updated storage in place). -/
def fsFlushAll (password : GoStr) : List (List Nat) → FStorage → List OperableF →
    FStorage × Bool
  | _, st, [] => (st, false)
  | nonces, st, o :: rest =>
    if o.closed then fsFlushAll password nonces st rest
    else
      match opfFlush password (nonces.headD []) st o with
      | (st', none) => fsFlushAll password (nonces.drop 1) st' rest
      | (st', some _) => (st', true)

/-- filestore.go `Filestore.Transaction`: extend over the keys (errors
short-circuit), run the operation — modeled as a pure transformer of the
staged operable states returning an optional error — and flush only when
the operation returned nil; the closing `defer` releases locks only. -/
def fsTransaction {ε : Type} (f : FilestoreM) (nonces : List (List Nat))
    (keys : List GoStr) (op : List OperableF → List OperableF × Option ε) :
    FilestoreM × TxRes ε :=
  match fsExtend f keys with
  | .panicked => (f, .panicked)
  | .errRead e => (f, .extendReadErr e)
  | .errDecrypt => (f, .extendDecryptErr)
  | .ok os =>
    match op os with
    | (_, some e) => (f, .opErr e)
    | (os', none) =>
      let r := fsFlushAll f.password nonces f.storage os'
      ({ f with storage := r.1 }, if r.2 then .panicked else .ok)

theorem encodeList_injective : ∀ l1 l2 : List Nat, encodeList l1 = encodeList l2 → l1 = l2 := by
  intro l1
  induction l1 with
  | nil =>
    intro l2 h
    cases l2 with
    | nil => rfl
    | cons b rest => simp [encodeList] at h
  | cons b rest ih =>
    intro l2 h
    cases l2 with
    | nil => simp [encodeList] at h
    | cons b' rest' =>
      simp only [encodeList, Nat.add_right_cancel_iff] at h
      obtain ⟨hb, hr⟩ := Nat.pair_eq_pair.mp h
      rw [hb, ih rest' hr]

theorem blake2bSum256_length (data : List Nat) : (blake2bSum256 data).length = 32 := by
  simp [blake2bSum256]

theorem blake2bSum256_injective (d1 d2 : List Nat)
    (h : blake2bSum256 d1 = blake2bSum256 d2) : d1 = d2 := by
  simp only [blake2bSum256, List.cons.injEq] at h
  exact encodeList_injective d1 d2 h.1

/-- Normal form of the serialized slot buffer: counter byte, the three LOW
little-endian bytes of the length, a zero where the fourth length byte
belongs (consequence of the `contents[1:4]` copy), the payload, and the
32-byte checksum. -/
theorem serializeRecord_eq (c : Nat) (data : List Nat) :
    serializeRecord c data =
      c :: (data.length % 256) :: (data.length / 2 ^ 8 % 256) ::
        (data.length / 2 ^ 16 % 256) :: 0 :: (data ++ blake2bSum256 data) := by
  unfold serializeRecord
  show goCopy (goCopy (goCopy ((List.replicate (1 + 4 + data.length + 32) 0).set 0 c)
      1 4 (putUint32LE data.length)) 5 (5 + data.length) data)
      (5 + data.length) (5 + data.length + 32) (blake2bSum256 data) = _
  rw [show 1 + 4 + data.length + 32 = (36 + data.length) + 1 by omega,
    List.replicate_succ,
    show ((0 : Nat) :: List.replicate (36 + data.length) 0).set 0 c
      = c :: List.replicate (36 + data.length) 0 from rfl]
  have h1 : goCopy (c :: List.replicate (36 + data.length) 0) 1 4 (putUint32LE data.length)
      = c :: (data.length % 256) :: (data.length / 2 ^ 8 % 256) ::
          (data.length / 2 ^ 16 % 256) :: List.replicate (33 + data.length) 0 := by
    have e : goCopy (c :: List.replicate (36 + data.length) 0) 1 4 (putUint32LE data.length)
        = c :: (data.length % 256) :: (data.length / 2 ^ 8 % 256) ::
            (data.length / 2 ^ 16 % 256) :: (List.replicate (36 + data.length) 0).drop 3 := rfl
    rw [e, List.drop_replicate, show 36 + data.length - 3 = 33 + data.length by omega]
  rw [h1]
  have h2 : goCopy (c :: (data.length % 256) :: (data.length / 2 ^ 8 % 256) ::
        (data.length / 2 ^ 16 % 256) :: List.replicate (33 + data.length) 0)
        5 (5 + data.length) data
      = c :: (data.length % 256) :: (data.length / 2 ^ 8 % 256) ::
          (data.length / 2 ^ 16 % 256) :: 0 :: (data ++ List.replicate 32 0) := by
    simp only [goCopy]
    rw [show 5 + data.length - 5 = data.length by omega, min_self, List.take_length data]
    have etk : (c :: (data.length % 256) :: (data.length / 2 ^ 8 % 256) ::
        (data.length / 2 ^ 16 % 256) :: List.replicate (33 + data.length) 0).take 5
        = c :: (data.length % 256) :: (data.length / 2 ^ 8 % 256) ::
            (data.length / 2 ^ 16 % 256) :: (List.replicate (33 + data.length) 0).take 1 := rfl
    have edp : (c :: (data.length % 256) :: (data.length / 2 ^ 8 % 256) ::
        (data.length / 2 ^ 16 % 256) :: List.replicate (33 + data.length) 0).drop
          (5 + data.length)
        = (List.replicate (33 + data.length) 0).drop (1 + data.length) := by
      rw [show 5 + data.length = (1 + data.length) + 4 by omega]
      rfl
    rw [etk, edp, List.take_replicate, List.drop_replicate,
      show min 1 (33 + data.length) = 1 by omega,
      show 33 + data.length - (1 + data.length) = 32 by omega]
    rfl
  rw [h2]
  simp only [goCopy]
  rw [show 36 + data.length + 1 - (5 + data.length) = 32 by omega,
    show min 32 (blake2bSum256 data).length = (blake2bSum256 data).length by
      rw [blake2bSum256_length]; exact min_self 32]
  rw [List.take_length (blake2bSum256 data)]
  have etk2 : (c :: (data.length % 256) :: (data.length / 2 ^ 8 % 256) ::
      (data.length / 2 ^ 16 % 256) :: 0 :: (data ++ List.replicate 32 0)).take
        (5 + data.length)
      = c :: (data.length % 256) :: (data.length / 2 ^ 8 % 256) ::
          (data.length / 2 ^ 16 % 256) :: 0 :: (data ++ List.replicate 32 0).take data.length := by
    rw [show 5 + data.length = data.length + 5 by omega]
    rfl
  have edp2 : (c :: (data.length % 256) :: (data.length / 2 ^ 8 % 256) ::
      (data.length / 2 ^ 16 % 256) :: 0 :: (data ++ List.replicate 32 0)).drop
        (5 + data.length + (blake2bSum256 data).length)
      = (data ++ List.replicate 32 0).drop (data.length + 32) := by
    rw [blake2bSum256_length, show 5 + data.length + 32 = (data.length + 32) + 5 by omega]
    rfl
  rw [etk2, edp2, List.take_left' (by rfl), List.drop_append_eq_append_drop,
    List.drop_replicate, List.drop_eq_nil_of_le (by omega),
    show data.length + 32 - data.length = 32 by omega]
  simp

/-- The first byte of the serialized buffer is the counter. -/
theorem serializeRecord_head (c : Nat) (data : List Nat) :
    (serializeRecord c data).head? = some c := by
  rw [serializeRecord_eq]
  rfl

/-- The state written by a non-empty `write`: the computed target slot holds
the serialized record; the other slot keeps its prior contents. -/
theorem write_state (fs : SlotFS) (data : List Nat) (h : data.length ≠ 0) :
    (write fs data).1 =
      setSlot fs (writeTarget (writeReadAttempt fs))
        (some (serializeRecord (writeGen (writeReadAttempt fs)) data)) := by
  unfold write
  rw [if_neg h]
  rcases hrc : readContents (serializeRecord (writeGen (writeReadAttempt fs)) data) with e | got
  · simp [hrc]
  · simp only [hrc]
    by_cases hgd : got = data <;> simp [hgd]

end EKV

/-- C2: for generation bytes a ≠ b in {0,1,2}, exactly one direction of
`compareModMonCntr` reports first-newer (1) and the other second-newer (2),
consistent with the cyclic order 0 < 1 < 2 < 0 (the second argument is newer
exactly when it is the cyclic successor of the first); equal arguments and
any argument outside {0,1,2} yield 0 (invalid). -/
theorem C2_compareModMonCntr_cyclic_order :
    (∀ a b : Nat, a < 3 → b < 3 → a ≠ b →
      (EKV.compareModMonCntr a b = 1 ∧ EKV.compareModMonCntr b a = 2) ∨
      (EKV.compareModMonCntr a b = 2 ∧ EKV.compareModMonCntr b a = 1)) ∧
    (∀ a b : Nat, a < 3 → b < 3 → a ≠ b →
      (EKV.compareModMonCntr a b = 2 ↔ b = (a + 1) % 3)) ∧
    (∀ a : Nat, EKV.compareModMonCntr a a = 0) ∧
    (∀ a b : Nat, 3 ≤ a ∨ 3 ≤ b → EKV.compareModMonCntr a b = 0) := by
  refine ⟨?_, ?_, ?_, ?_⟩
  · intro a b ha hb hne
    interval_cases a <;> interval_cases b <;> simp_all <;> decide
  · intro a b ha hb hne
    interval_cases a <;> interval_cases b <;> simp_all <;> decide
  · intro a
    simp only [EKV.compareModMonCntr]
    rcases Nat.lt_or_ge a 3 with h | h
    · interval_cases a <;> decide
    · have h0 : (a == 1) = false := by simp; omega
      have h1 : (a == 2) = false := by simp; omega
      have h2 : (a == 0) = false := by simp; omega
      simp [h0, h1, h2]
  · intro a b h
    simp only [EKV.compareModMonCntr]
    rcases h with h | h
    · have h0 : (a == 1) = false := by simp; omega
      have h1 : (a == 2) = false := by simp; omega
      have h2 : (a == 0) = false := by simp; omega
      simp [h0, h1, h2]
    · have h0 : (b == 0) = false := by simp; omega
      have h1 : (b == 1) = false := by simp; omega
      have h2 : (b == 2) = false := by simp; omega
      simp [h0, h1, h2]

/-- Witness for C2 at a = 0, b = 1. -/
theorem C2_witness :
    (EKV.compareModMonCntr 0 1 = 1 ∧ EKV.compareModMonCntr 1 0 = 2) ∨
    (EKV.compareModMonCntr 0 1 = 2 ∧ EKV.compareModMonCntr 1 0 = 1) :=
  C2_compareModMonCntr_cyclic_order.1 0 1 (by decide) (by decide) (by decide)

/-- C4: `write` of a zero-length payload returns the InvalidSize error
before touching storage: the slot state returned is exactly the input state
(both slot files unchanged). -/
theorem C4_write_empty_rejected (fs : EKV.SlotFS) :
    EKV.write fs [] = (fs, some EKV.WriteErr.invalidSize) := rfl

/-- C6: a slot whose stored 4-byte length field parses to the non-positive
value 0 is NOT rejected with InvalidSize: `readContents` drops the
constructed error (missing `return` in the source) and continues, here
successfully returning the empty payload because the trailing 32 bytes
checksum the empty payload. The input below is the file
`[generation 1, length 00 00 00 00, 32-byte checksum of the empty payload]`. -/
theorem C6_readContents_ignores_zero_size :
    EKV.readContents ([1, 0, 0, 0, 0] ++ EKV.blake2bSum256 [])
      = Except.ok ([] : List Nat) ∧
    Except.ok ([] : List Nat) ≠ Except.error EKV.RcErr.invalidSize := by
  constructor
  · rfl
  · intro h
    exact Except.noConfusion h

/-- C9: the serialized slot buffer does NOT hold the payload length as a
full 4-byte little-endian integer: `copy(contents[1:4], sizeBytes)` copies
only the three low bytes, so the byte at offset 4 is always 0, while the
little-endian encoding of a length of 2^24 has 1 there (fourth byte of
`putUint32LE`). The payload-at-offset-5 and checksum-at-offset-5+L parts of
the layout do hold and are also stated. -/
theorem C9_length_field_high_byte_dropped :
    (∀ (g : Nat) (data : List Nat), (EKV.serializeRecord g data).get? 4 = some 0) ∧
    EKV.putUint32LE (2 ^ 24) = [0, 0, 0, 1] ∧
    (∀ (g : Nat) (data : List Nat),
      (EKV.serializeRecord g data).drop 5 = data ++ EKV.blake2bSum256 data) := by
  refine ⟨?_, by decide, ?_⟩
  · intro g data
    rw [EKV.serializeRecord_eq]
    rfl
  · intro g data
    rw [EKV.serializeRecord_eq]
    rfl

/-- Counterexample for C1: when neither slot is readable (both slot files
absent), `write` stores generation byte 0, not 1 as the claim states (the
counter defaults to 2 and `(2+1) % 3 = 0`; the source's own comment says
"defaults to 0 when we can't read it"). -/
theorem C1_counterexample :
    ((EKV.write ⟨none, none⟩ [42]).1.slot1.bind List.head?) = some 0 ∧
    (0 : Nat) ≠ 1 := by
  constructor
  · rfl
  · decide

/-- C1 (amended): `write` targets the slot other than the one last read
successfully and stores generation `(lastReadGeneration + 1) % 3` (computed
in Go byte arithmetic, i.e. `((g + 1) % 256) % 3`, which equals
`(g+1) % 3` for generations in {0,1,2}); when neither slot was readable the
counter defaults to 2, so the generation written is 0 — not 1 — and the
target slot is `path.1`. The written slot holds the serialized record whose
first byte is that generation; the other slot keeps its prior contents. -/
theorem C1_write_slot_rotation_amended :
    (∀ (fs : EKV.SlotFS) (data : List Nat), data.length ≠ 0 →
      EKV.writeReadAttempt fs = none →
      (EKV.write fs data).1
        = ⟨some (EKV.serializeRecord 0 data), fs.slot2⟩) ∧
    (∀ (fs : EKV.SlotFS) (data : List Nat) (sid : EKV.SlotId) (g : Nat),
      data.length ≠ 0 →
      EKV.writeReadAttempt fs = some (sid, g) →
      (EKV.write fs data).1
        = EKV.setSlot fs (EKV.otherSlot sid)
            (some (EKV.serializeRecord ((g + 1) % 256 % 3) data))) ∧
    (∀ (g : Nat) (data : List Nat),
      (EKV.serializeRecord g data).head? = some g) := by
  refine ⟨?_, ?_, fun g data => EKV.serializeRecord_head g data⟩
  · intro fs data hne hnone
    rw [EKV.write_state fs data hne, hnone]
    rfl
  · intro fs data sid g hne hsome
    rw [EKV.write_state fs data hne, hsome]
    cases sid <;> rfl

/-- Witness for C1 (amended) at both slots absent with payload [7]. -/
theorem C1_witness :
    (EKV.write ⟨none, none⟩ [7]).1
      = ⟨some (EKV.serializeRecord 0 [7]), none⟩ :=
  C1_write_slot_rotation_amended.1 ⟨none, none⟩ [7] (by decide) (by rfl)

/-- The authentication tags of the ideal AEAD disagree whenever the keys
disagree. -/
theorem aeadTag_ne_of_key_ne {k1 k2 : List Nat} (n b : List Nat)
    (h : k1 ≠ k2) : EKV.aeadTag k1 n b ≠ EKV.aeadTag k2 n b := by
  intro he
  unfold EKV.aeadTag at he
  exact h (EKV.encodeList_injective k1 k2 (Nat.pair_eq_pair.mp he).1)

/-- Opening a sealed message with the sealing key recovers the message. -/
theorem aeadOpen_seal (k n d : List Nat) :
    EKV.aeadOpen k n (EKV.aeadSeal k n d) = some d := by
  unfold EKV.aeadOpen EKV.aeadSeal
  rw [List.reverse_append]
  simp

/-- Opening a sealed message with a different key fails. -/
theorem aeadOpen_seal_ne {k1 k2 : List Nat} (n d : List Nat) (h : k1 ≠ k2) :
    EKV.aeadOpen k2 n (EKV.aeadSeal k1 n d) = none := by
  unfold EKV.aeadOpen EKV.aeadSeal
  rw [List.reverse_append]
  simp only [List.reverse_cons, List.reverse_nil, List.nil_append,
    List.singleton_append, List.reverse_reverse]
  rw [if_neg (aeadTag_ne_of_key_ne n d h)]

/-- C3: decrypting an encryption with the same password recovers the
payload with no error; decrypting with any distinct password returns the
authentication error (the external AEAD and hash are modeled as ideal
primitives; the csprng draw is the 24-byte `nonce` argument). -/
theorem C3_encrypt_decrypt_roundtrip :
    (∀ (p : List Nat) (pw : EKV.GoStr) (nonce : List Nat),
      nonce.length = EKV.nonceSize →
      EKV.decrypt (EKV.encrypt p pw nonce) pw = EKV.DecR.ok p) ∧
    (∀ (p : List Nat) (pw1 pw2 : EKV.GoStr) (nonce : List Nat),
      nonce.length = EKV.nonceSize → pw1 ≠ pw2 →
      EKV.decrypt (EKV.encrypt p pw1 nonce) pw2 = EKV.DecR.authErr) := by
  constructor
  · intro p pw nonce h24
    unfold EKV.decrypt EKV.encrypt
    have hns : EKV.nonceSize = nonce.length := by rw [h24]
    have hlen : ¬((nonce ++ EKV.aeadSeal (EKV.initChaCha20Poly1305 pw) nonce p).length
        < EKV.nonceSize) := by
      simp [EKV.aeadSeal, hns]
    rw [if_neg hlen, hns, List.take_left, List.drop_left, aeadOpen_seal]
  · intro p pw1 pw2 nonce h24 hne
    unfold EKV.decrypt EKV.encrypt
    have hns : EKV.nonceSize = nonce.length := by rw [h24]
    have hlen : ¬((nonce ++ EKV.aeadSeal (EKV.initChaCha20Poly1305 pw1) nonce p).length
        < EKV.nonceSize) := by
      simp [EKV.aeadSeal, hns]
    have hkey : EKV.initChaCha20Poly1305 pw1 ≠ EKV.initChaCha20Poly1305 pw2 :=
      fun h => hne (EKV.blake2bSum256_injective pw1 pw2 h)
    rw [if_neg hlen, hns, List.take_left, List.drop_left, aeadOpen_seal_ne nonce p hkey]

/-- Witness for C3 at payload [5], passwords [1] and [2], all-zero nonce. -/
theorem C3_witness :
    EKV.decrypt (EKV.encrypt [5] [1] (List.replicate 24 0)) [1] = EKV.DecR.ok [5] ∧
    EKV.decrypt (EKV.encrypt [5] [1] (List.replicate 24 0)) [2] = EKV.DecR.authErr :=
  ⟨C3_encrypt_decrypt_roundtrip.1 [5] [1] (List.replicate 24 0) (by decide),
   C3_encrypt_decrypt_roundtrip.2 [5] [1] [2] (List.replicate 24 0) (by decide) (by decide)⟩

/-- Counterexample for C7: `decrypt` of the empty input (shorter than the
24-byte nonce) terminates abnormally — the Go slice expression
`data[:nonceLen]` panics — instead of returning the AuthenticationFailure
error the claim states. -/
theorem C7_counterexample :
    EKV.decrypt [] [] = EKV.DecR.panicked ∧
    EKV.DecR.panicked ≠ EKV.DecR.authErr := by
  refine ⟨rfl, ?_⟩
  decide

/-- C7 (amended): for every input shorter than the AEAD nonce size and
every password, `decrypt` panics (Go slice bounds violation in the nonce
split) — it does not return an error; the AuthenticationFailure error is
produced only for inputs of at least nonce length that fail AEAD opening. -/
theorem C7_short_input_panics_amended (data : List Nat) (pw : EKV.GoStr)
    (h : data.length < EKV.nonceSize) :
    EKV.decrypt data pw = EKV.DecR.panicked := by
  unfold EKV.decrypt
  rw [if_pos h]

/-- Witness for C7 (amended) at the empty input. -/
theorem C7_witness : EKV.decrypt [] [] = EKV.DecR.panicked :=
  C7_short_input_panics_amended [] [] (by decide)

/-- C8: `Exists` returns true on a nil error, and returns false exactly for
the recognized not-found conditions — an error wrapping `os.ErrNotExist` or
one whose message contains the object-not-found text; every other error
yields true. -/
theorem C8_exists_not_found_iff :
    EKV.ExistsFn none = true ∧
    (∀ e : Option EKV.GoErr,
      EKV.ExistsFn e = false ↔
        ∃ er, e = some er ∧
          (er.wrapsNotExist = true ∨
           EKV.goStringsContains er.msg EKV.objectNotFoundErr = true)) := by
  refine ⟨rfl, ?_⟩
  intro e
  cases e with
  | none => simp [EKV.ExistsFn]
  | some er =>
    simp only [EKV.ExistsFn, Bool.not_eq_false', Bool.or_eq_true,
      Option.some.injEq]
    constructor
    · intro h
      exact ⟨er, rfl, h⟩
    · rintro ⟨er', heq, h⟩
      rw [← heq] at h
      exact h

/-- C5: when the transaction operation returns a non-nil error, both
`Memstore.Transaction` and `Filestore.Transaction` return exactly that
error without flushing any staged Operable: the store state after the call
equals the state before it. The operation is modeled as a pure transformer
of the staged operable list; for the Filestore the hypothesis states that
`Extend` itself succeeded (its own failures also leave the state
unchanged, see `fsTransaction`). -/
theorem C5_transaction_op_error_aborts :
    (∀ (ε : Type) (m : EKV.MemMap) (keys : List EKV.GoStr)
      (op : List EKV.OperableMem → List EKV.OperableMem × Option ε) (e : ε),
      (op (EKV.memExtend m keys)).2 = some e →
      EKV.memTransaction m keys op = (m, EKV.TxRes.opErr e)) ∧
    (∀ (ε : Type) (f : EKV.FilestoreM) (nonces : List (List Nat))
      (keys : List EKV.GoStr)
      (op : List EKV.OperableF → List EKV.OperableF × Option ε) (e : ε),
      EKV.isExtendOk (EKV.fsExtend f keys) = true →
      (op (EKV.extractOpers (EKV.fsExtend f keys))).2 = some e →
      EKV.fsTransaction f nonces keys op = (f, EKV.TxRes.opErr e)) := by
  constructor
  · intro ε m keys op e h
    unfold EKV.memTransaction
    rcases hop : op (EKV.memExtend m keys) with ⟨os', r⟩
    rw [hop] at h
    simp only at h
    simp [hop, h]
  · intro ε f nonces keys op e hOk h
    unfold EKV.fsTransaction
    rcases hE : EKV.fsExtend f keys with _ | e' | _ | os
    · rw [hE] at hOk; simp [EKV.isExtendOk] at hOk
    · rw [hE] at hOk; simp [EKV.isExtendOk] at hOk
    · rw [hE] at hOk; simp [EKV.isExtendOk] at hOk
    · rw [hE] at h
      simp only [EKV.extractOpers] at h
      rcases hop : op os with ⟨os', r⟩
      rw [hop] at h
      simp only at h
      simp [hop, h]

/-- Witness for C5: empty stores, one key, an operation that stages nothing
and returns error 7. -/
theorem C5_witness :
    EKV.memTransaction ([] : EKV.MemMap) [[1]]
        (fun s => (s, some (7 : Nat)))
      = (([] : EKV.MemMap), EKV.TxRes.opErr 7) ∧
    EKV.fsTransaction ⟨[], [], []⟩ [] [[1]]
        (fun s => (s, some (7 : Nat)))
      = (⟨[], [], []⟩, EKV.TxRes.opErr 7) :=
  ⟨C5_transaction_op_error_aborts.1 Nat [] [[1]] (fun s => (s, some 7)) 7 rfl,
   C5_transaction_op_error_aborts.2 Nat ⟨[], [], []⟩ [] [[1]]
     (fun s => (s, some 7)) 7 rfl rfl⟩

/-- C10: on an open (not yet closed) Operable of either store, `Set d`
makes `Get` return `(d, true)` and `Exists` return true, and `Delete`
makes `Get` return `(nil, false)` and `Exists` return false — for every
operable state, in particular regardless of the snapshot fields `existed`
and `exs` taken when the transaction was extended. -/
theorem C10_operable_set_delete_get :
    ∀ (o : EKV.OperableF) (om : EKV.OperableMem) (d dm : EKV.GoBytes),
      o.closed = false → om.closed = false →
      (EKV.opfGet (EKV.opfSet o d) = (d, true) ∧
       EKV.opfExists (EKV.opfSet o d) = true ∧
       EKV.opfGet (EKV.opfDelete o) = (none, false) ∧
       EKV.opfExists (EKV.opfDelete o) = false) ∧
      (EKV.opmGet (EKV.opmSet om dm) = (dm, true) ∧
       EKV.opmExists (EKV.opmSet om dm) = true ∧
       EKV.opmGet (EKV.opmDelete om) = (none, false) ∧
       EKV.opmExists (EKV.opmDelete om) = false) := by
  intro o om d dm hco hcm
  exact ⟨⟨rfl, rfl, rfl, rfl⟩, ⟨rfl, rfl, rfl, rfl⟩⟩

/-- Witness for C10 at concrete open operables with payload [9]. -/
theorem C10_witness :
    EKV.opfGet (EKV.opfSet ⟨[1], false, [2], none, false, false, .readOp⟩ (some [9]))
      = (some [9], true) ∧
    EKV.opmGet (EKV.opmDelete ⟨[1], false, some [3], true, .readOp⟩)
      = (none, false) :=
  ⟨((C10_operable_set_delete_get ⟨[1], false, [2], none, false, false, .readOp⟩
      ⟨[1], false, some [3], true, .readOp⟩ (some [9]) none rfl rfl).1).1,
   (((C10_operable_set_delete_get ⟨[1], false, [2], none, false, false, .readOp⟩
      ⟨[1], false, some [3], true, .readOp⟩ (some [9]) none rfl rfl).2).2).2.1⟩
